import Mathlib

/-!
Shallow embedding of the schema diffing and SQL generation core of the
drizzle-tx-migrations repository (src/schema-differ.ts, src/sql-generator.ts,
src/schema-introspector.ts), together with theorems settling the claims about
the Differ, the SQL Generator and the Introspector.

JavaScript strings are modelled as Lean `String`, JavaScript `Map` as an
insertion-ordered association list with unique keys, `undefined`-able values
as `Option`, and the database catalog rows consumed by the introspector as
explicit row structures.  All definitions are computable so that concrete
inputs evaluate by kernel reduction.
-/

namespace Drizzle

/-! ### String helpers

Models of the JavaScript string operations used by the source
(`toLowerCase`, `toUpperCase`, `trim`, `replace(/\s+/g)`, `includes`,
`join`, `endsWith`), implemented over `List Char` so they compute. -/

/-- JS `String.prototype.toLowerCase` (ASCII-faithful). -/
def lowerString (s : String) : String := ⟨s.data.map Char.toLower⟩

/-- JS `String.prototype.toUpperCase` (ASCII-faithful). -/
def upperString (s : String) : String := ⟨s.data.map Char.toUpper⟩

/-- JS `String.prototype.trim`: strip whitespace from both ends. -/
def trimString (s : String) : String :=
  ⟨((s.data.dropWhile Char.isWhitespace).reverse.dropWhile Char.isWhitespace).reverse⟩

/-- JS `str.replace(/\s+/g, "")`: drop every whitespace character. -/
def stripWhitespace (s : String) : String := ⟨s.data.filter (fun c => !c.isWhitespace)⟩

/-- JS `Array.prototype.join(sep)` on an array of strings. -/
def joinSep (sep : String) : List String → String
  | [] => ""
  | [s] => s
  | s :: rest => s ++ sep ++ joinSep sep rest

/-- Does the character list contain `pat` as a contiguous run? -/
def charsContain (pat : List Char) : List Char → Bool
  | [] => pat.isEmpty
  | c :: rest => pat.isPrefixOf (c :: rest) || charsContain pat rest

/-- JS `String.prototype.includes`. -/
def strIncludes (s pat : String) : Bool := charsContain pat.data s.data

/-- JS `String.prototype.endsWith`. -/
def strEndsWith (s suf : String) : Bool := suf.data.isSuffixOf s.data

/-- JS `String.prototype.split(sep)` for a single-character separator. -/
def splitChar (sep : Char) (l : List Char) : List (List Char) :=
  l.foldr
    (fun c acc =>
      if c == sep then [] :: acc
      else
        match acc with
        | [] => [[c]]
        | h :: t => (c :: h) :: t)
    [[]]

/-! ### JavaScript `Map`

A JS `Map` is modelled as an insertion-ordered association list with unique
keys.  `Map.prototype.set` on an existing key updates the value in place and
keeps the key at its original position (ECMAScript semantics); on a fresh key
it appends.  `new Map(entries)` folds `set` over the entries. -/

/-- JS `Map.prototype.has`. -/
def mapHas {β : Type} (m : List (String × β)) (k : String) : Bool :=
  m.any (fun p => p.1 == k)

/-- JS `Map.prototype.get` (`none` models `undefined`). -/
def mapGet {β : Type} (m : List (String × β)) (k : String) : Option β :=
  (m.find? (fun p => p.1 == k)).map (·.2)

/-- JS `Map.prototype.set`. -/
def mapSet {β : Type} (m : List (String × β)) (k : String) (v : β) : List (String × β) :=
  if mapHas m k then m.map (fun p => if p.1 == k then (k, v) else p) else m ++ [(k, v)]

/-- JS `new Map(entries)`: insert the entries left to right. -/
def mapFromList {β : Type} (l : List (String × β)) : List (String × β) :=
  l.foldl (fun m p => mapSet m p.1 p.2) []

/-- The data invariant of a JS `Map`: its entry list has unique keys. -/
@[reducible] def NodupKeys {β : Type} (m : List (String × β)) : Prop :=
  (m.map Prod.fst).Nodup

/-! ### Normalized schema model (src/schema-introspector.ts interfaces) -/

/-- `TableColumn` of schema-introspector.ts. -/
structure TableColumn where
  name : String
  type : String
  notNull : Bool
  defaultValue : Option String
  primaryKey : Bool
  autoIncrement : Bool
deriving DecidableEq, Repr

/-- `TableIndex` of schema-introspector.ts. -/
structure TableIndex where
  name : String
  columns : List String
  unique : Bool
deriving DecidableEq, Repr

/-- `ForeignKey` of schema-introspector.ts. -/
structure ForeignKey where
  name : String
  column : String
  referencedTable : String
  referencedColumn : String
  onDelete : Option String
  onUpdate : Option String
deriving DecidableEq, Repr

/-- `TableSchema` of schema-introspector.ts. -/
structure TableSchema where
  name : String
  columns : List TableColumn
  indexes : List TableIndex
  foreignKeys : List ForeignKey
  primaryKey : List String
deriving DecidableEq, Repr

/-- `DatabaseSchema` of schema-introspector.ts: a `Map` from table name to
`TableSchema`, modelled as its insertion-ordered entry list. -/
structure DatabaseSchema where
  tables : List (String × TableSchema)
deriving DecidableEq, Repr

/-! ### Differ (src/schema-differ.ts) -/

/-- `TableChange` of schema-differ.ts; the `details` payload of each tag is
inlined as constructor arguments. -/
inductive TableChange where
  | add_column (column : String) (col : TableColumn)
  | drop_column (column : String) (col : TableColumn)
  | modify_column (column : String) (currentColumn desiredColumn : TableColumn)
deriving DecidableEq, Repr

/-- `SchemaChange` of schema-differ.ts; the `details` payload of each tag is
inlined as constructor arguments. -/
inductive SchemaChange where
  | create_table (table : String) (tableSchema : TableSchema)
  | drop_table (table : String) (tableSchema : TableSchema)
  | alter_table (table : String) (changes : List TableChange)
      (currentTable desiredTable : TableSchema)
  | create_index (table : String) (index : TableIndex)
  | drop_index (table : String) (index : TableIndex)
  | add_foreign_key (table : String) (foreignKey : ForeignKey)
  | drop_foreign_key (table : String) (foreignKey : ForeignKey)
deriving DecidableEq, Repr

/-- The `normalizeType` closure inside `SchemaDiffer.columnsAreDifferent`:
`type.toLowerCase().replace(/\s+/g, "")`. -/
def normalizeType (t : String) : String := stripWhitespace (lowerString t)

/-- The quote-stripping step of the `normalize` closure inside
`SchemaDiffer.defaultsAreDifferent`: `val.replace(/^['"]|['"]$/g, "")`,
i.e. remove one leading and one trailing single or double quote. -/
def stripQuoteEnds (s : String) : String :=
  let l₁ :=
    match s.data with
    | [] => ([] : List Char)
    | c :: rest => if c == '\'' || c == '"' then rest else c :: rest
  let l₂ :=
    match l₁.getLast? with
    | some c => if c == '\'' || c == '"' then l₁.dropLast else l₁
    | none => l₁
  ⟨l₂⟩

/-- The `normalize` closure of `SchemaDiffer.defaultsAreDifferent`
(restricted to the `string | undefined` values the model carries). -/
def normalizeDefault : Option String → Option String
  | none => none
  | some s => some (trimString (stripQuoteEnds s))

/-- `SchemaDiffer.defaultsAreDifferent`. -/
def defaultsAreDifferent (current desired : Option String) : Bool :=
  normalizeDefault current != normalizeDefault desired

/-- `SchemaDiffer.columnsAreDifferent`. -/
def columnsAreDifferent (current desired : TableColumn) : Bool :=
  normalizeType current.type != normalizeType desired.type ||
  current.notNull != desired.notNull ||
  current.primaryKey != desired.primaryKey ||
  defaultsAreDifferent current.defaultValue desired.defaultValue

/-- JS `current.columns.every((col, i) => col === desired.columns[i])`,
unfolded with an explicit running position. -/
def columnsMatchFrom (desired : List String) : List String → Nat → Bool
  | [], _ => true
  | c :: cs, i => (desired[i]? == some c) && columnsMatchFrom desired cs (i + 1)

/-- `SchemaDiffer.indexesAreDifferent`. -/
def indexesAreDifferent (current desired : TableIndex) : Bool :=
  current.unique != desired.unique ||
  current.columns.length != desired.columns.length ||
  !(columnsMatchFrom desired.columns current.columns 0)

/-- `SchemaDiffer.foreignKeysAreDifferent`. -/
def foreignKeysAreDifferent (current desired : ForeignKey) : Bool :=
  current.column != desired.column ||
  current.referencedTable != desired.referencedTable ||
  current.referencedColumn != desired.referencedColumn ||
  current.onDelete != desired.onDelete ||
  current.onUpdate != desired.onUpdate

/-- `SchemaDiffer.diffTables`. -/
def diffTables (currentTable desiredTable : TableSchema) : List TableChange :=
  let currentColumns := mapFromList (currentTable.columns.map (fun c => (c.name, c)))
  let desiredColumns := mapFromList (desiredTable.columns.map (fun c => (c.name, c)))
  let dropChanges := currentColumns.filterMap (fun p =>
    if mapHas desiredColumns p.1 then none else some (TableChange.drop_column p.1 p.2))
  let addModifyChanges := desiredColumns.filterMap (fun p =>
    match mapGet currentColumns p.1 with
    | none => some (TableChange.add_column p.1 p.2)
    | some currentCol =>
      if columnsAreDifferent currentCol p.2 then
        some (TableChange.modify_column p.1 currentCol p.2)
      else none)
  dropChanges ++ addModifyChanges

/-- `SchemaDiffer.diffIndexes`. -/
def diffIndexes (currentTable desiredTable : TableSchema) (tableName : String) :
    List SchemaChange :=
  let currentIndexes := mapFromList (currentTable.indexes.map (fun i => (i.name, i)))
  let desiredIndexes := mapFromList (desiredTable.indexes.map (fun i => (i.name, i)))
  let dropChanges := currentIndexes.filterMap (fun p =>
    if mapHas desiredIndexes p.1 then none else some (SchemaChange.drop_index tableName p.2))
  let createChanges := desiredIndexes.flatMap (fun p =>
    match mapGet currentIndexes p.1 with
    | none => [SchemaChange.create_index tableName p.2]
    | some currentIdx =>
      if indexesAreDifferent currentIdx p.2 then
        [SchemaChange.drop_index tableName currentIdx,
          SchemaChange.create_index tableName p.2]
      else [])
  dropChanges ++ createChanges

/-- `SchemaDiffer.diffForeignKeys`. -/
def diffForeignKeys (currentTable desiredTable : TableSchema) (tableName : String) :
    List SchemaChange :=
  let currentFks := mapFromList (currentTable.foreignKeys.map (fun fk => (fk.name, fk)))
  let desiredFks := mapFromList (desiredTable.foreignKeys.map (fun fk => (fk.name, fk)))
  let dropChanges := currentFks.filterMap (fun p =>
    if mapHas desiredFks p.1 then none
    else some (SchemaChange.drop_foreign_key tableName p.2))
  let createChanges := desiredFks.flatMap (fun p =>
    match mapGet currentFks p.1 with
    | none => [SchemaChange.add_foreign_key tableName p.2]
    | some currentFk =>
      if foreignKeysAreDifferent currentFk p.2 then
        [SchemaChange.drop_foreign_key tableName currentFk,
          SchemaChange.add_foreign_key tableName p.2]
      else [])
  dropChanges ++ createChanges

/-- `SchemaDiffer.diff` for a differ constructed on `(currentSchema, desiredSchema)`. -/
def diff (currentSchema desiredSchema : DatabaseSchema) : List SchemaChange :=
  let dropTableChanges := currentSchema.tables.filterMap (fun p =>
    if mapHas desiredSchema.tables p.1 then none
    else some (SchemaChange.drop_table p.1 p.2))
  let createTableChanges := desiredSchema.tables.flatMap (fun p =>
    if mapHas currentSchema.tables p.1 then []
    else
      SchemaChange.create_table p.1 p.2 ::
        (p.2.indexes.map (fun i => SchemaChange.create_index p.1 i) ++
          p.2.foreignKeys.map (fun fk => SchemaChange.add_foreign_key p.1 fk)))
  let alterChanges := desiredSchema.tables.flatMap (fun p =>
    match mapGet currentSchema.tables p.1 with
    | none => []
    | some currentTable =>
      let tableChanges := diffTables currentTable p.2
      (if tableChanges.length > 0 then
        [SchemaChange.alter_table p.1 tableChanges currentTable p.2]
      else []) ++
        diffIndexes currentTable p.2 p.1 ++
        diffForeignKeys currentTable p.2 p.1)
  dropTableChanges ++ createTableChanges ++ alterChanges

/-! ### SQL Generator (src/sql-generator.ts) -/

/-- `DbDialect` of src/types.ts. -/
inductive DbDialect where
  | postgresql
  | mysql
  | sqlite
deriving DecidableEq, Repr

/-- `GeneratedSql` of sql-generator.ts. -/
structure GeneratedSql where
  upStatements : List String
  downStatements : List String
deriving DecidableEq, Repr

/-- `SqlGenerator.quote`. -/
def quote (dialect : DbDialect) (identifier : String) : String :=
  match dialect with
  | .postgresql => "\"" ++ identifier ++ "\""
  | .mysql => "`" ++ identifier ++ "`"
  | .sqlite => "\"" ++ identifier ++ "\""

/-- The `pgTypes` record of `SqlGenerator.getColumnType`. -/
def pgTypes : List (String × String) :=
  [("integer", "INTEGER"), ("bigint", "BIGINT"), ("smallint", "SMALLINT"),
    ("varchar", "VARCHAR(255)"), ("text", "TEXT"), ("boolean", "BOOLEAN"),
    ("timestamp", "TIMESTAMP"), ("timestamptz", "TIMESTAMPTZ"), ("date", "DATE"),
    ("time", "TIME"), ("json", "JSON"), ("jsonb", "JSONB"), ("uuid", "UUID"),
    ("real", "REAL"), ("double", "DOUBLE PRECISION"), ("decimal", "DECIMAL")]

/-- The `mysqlTypes` record of `SqlGenerator.getColumnType`. -/
def mysqlTypes : List (String × String) :=
  [("integer", "INT"), ("bigint", "BIGINT"), ("smallint", "SMALLINT"),
    ("varchar", "VARCHAR(255)"), ("text", "TEXT"), ("boolean", "BOOLEAN"),
    ("timestamp", "TIMESTAMP"), ("datetime", "DATETIME"), ("date", "DATE"),
    ("json", "JSON"), ("real", "FLOAT"), ("double", "DOUBLE"), ("decimal", "DECIMAL")]

/-- The `sqliteTypes` record of `SqlGenerator.getColumnType`. -/
def sqliteTypes : List (String × String) :=
  [("integer", "INTEGER"), ("bigint", "INTEGER"), ("smallint", "INTEGER"),
    ("varchar", "TEXT"), ("text", "TEXT"), ("boolean", "INTEGER"),
    ("timestamp", "TEXT"), ("date", "TEXT"), ("json", "TEXT"), ("real", "REAL"),
    ("double", "REAL"), ("decimal", "REAL"), ("blob", "BLOB")]

/-- `SqlGenerator.getColumnType`.  The JS lookup `record[type] || fallback`
takes the fallback exactly when the key is unmapped (every mapped value is a
non-empty, hence truthy, string). -/
def getColumnType (dialect : DbDialect) (column : TableColumn) : String :=
  let type := lowerString column.type
  match dialect with
  | .postgresql => (mapGet pgTypes type).getD (upperString type)
  | .mysql => (mapGet mysqlTypes type).getD (upperString type)
  | .sqlite => (mapGet sqliteTypes type).getD "TEXT"

/-- `SqlGenerator.generateColumnDefinition`. -/
def generateColumnDefinition (dialect : DbDialect) (column : TableColumn) : String :=
  let name := quote dialect column.name
  let type := getColumnType dialect column
  let notNull := if column.notNull then " NOT NULL" else ""
  let primaryKey := if column.primaryKey && !column.autoIncrement then " PRIMARY KEY" else ""
  let defaultValue :=
    match column.defaultValue with
    | some v => if v == "" then "" else " DEFAULT " ++ v
    | none => ""
  if column.autoIncrement then
    match dialect with
    | .postgresql => name ++ " SERIAL PRIMARY KEY"
    | .mysql =>
      name ++ " " ++ type ++ notNull ++ primaryKey ++ " AUTO_INCREMENT PRIMARY KEY" ++
        defaultValue
    | .sqlite => name ++ " INTEGER PRIMARY KEY AUTOINCREMENT"
  else
    name ++ " " ++ type ++ notNull ++ primaryKey ++ defaultValue

/-- The CREATE TABLE statement built identically by
`SqlGenerator.generateCreateTable` (up) and `SqlGenerator.generateDropTable`
(down). -/
def createTableStatement (dialect : DbDialect) (table : String)
    (tableSchema : TableSchema) : String :=
  let columnDefs := tableSchema.columns.map (generateColumnDefinition dialect)
  let columnDefs :=
    if tableSchema.primaryKey.length > 1 then
      columnDefs ++
        ["PRIMARY KEY (" ++ joinSep ", " (tableSchema.primaryKey.map (quote dialect)) ++ ")"]
    else columnDefs
  "CREATE TABLE " ++ quote dialect table ++ " (\n  " ++ joinSep ",\n  " columnDefs ++ "\n);"

/-- The DROP TABLE statement of `generateCreateTable` (down) and
`generateDropTable` (up). -/
def dropTableStatement (dialect : DbDialect) (table : String) : String :=
  "DROP TABLE IF EXISTS " ++ quote dialect table ++ ";"

/-- `SqlGenerator.generateCreateTable`: `(up, down)` statement lists. -/
def generateCreateTable (dialect : DbDialect) (table : String)
    (tableSchema : TableSchema) : List String × List String :=
  ([createTableStatement dialect table tableSchema], [dropTableStatement dialect table])

/-- `SqlGenerator.generateDropTable`: `(up, down)` statement lists. -/
def generateDropTable (dialect : DbDialect) (table : String)
    (tableSchema : TableSchema) : List String × List String :=
  ([dropTableStatement dialect table], [createTableStatement dialect table tableSchema])

/-- `SqlGenerator.generateModifyColumn`. -/
def generateModifyColumn (dialect : DbDialect) (tableName : String)
    (column : TableColumn) : String :=
  let table := quote dialect tableName
  let colName := quote dialect column.name
  let colDef := generateColumnDefinition dialect column
  match dialect with
  | .postgresql =>
    "ALTER TABLE " ++ table ++ " ALTER COLUMN " ++ colName ++ " TYPE " ++
      getColumnType dialect column ++ ";"
  | .mysql => "ALTER TABLE " ++ table ++ " MODIFY COLUMN " ++ colDef ++ ";"
  | .sqlite => "-- SQLite doesn't support MODIFY COLUMN natively, manual migration required"

/-- `SqlGenerator.generateTableChange`: `(up, down)` statement lists for one
nested `TableChange`.  In the source the `add_column` up statement and the
`drop_column` down statement are written as a dialect conditional with equal
branches; they collapse to the single ADD COLUMN form here. -/
def generateTableChange (dialect : DbDialect) (tableName : String) :
    TableChange → List String × List String
  | .add_column column col =>
    let table := quote dialect tableName
    let colDef := generateColumnDefinition dialect col
    let addSQL := "ALTER TABLE " ++ table ++ " ADD COLUMN " ++ colDef ++ ";"
    let dropSQL :=
      match dialect with
      | .sqlite => "-- SQLite doesn't support DROP COLUMN natively, manual migration required"
      | _ => "ALTER TABLE " ++ table ++ " DROP COLUMN " ++ quote dialect column ++ ";"
    ([addSQL], [dropSQL])
  | .drop_column column col =>
    let table := quote dialect tableName
    let colDef := generateColumnDefinition dialect col
    let dropSQL :=
      match dialect with
      | .sqlite => "-- SQLite doesn't support DROP COLUMN natively, manual migration required"
      | _ => "ALTER TABLE " ++ table ++ " DROP COLUMN " ++ quote dialect column ++ ";"
    let addSQL := "ALTER TABLE " ++ table ++ " ADD COLUMN " ++ colDef ++ ";"
    ([dropSQL], [addSQL])
  | .modify_column _ currentColumn desiredColumn =>
    ([generateModifyColumn dialect tableName desiredColumn],
      [generateModifyColumn dialect tableName currentColumn])

/-- `SqlGenerator.generateCreateIndex`: `(up, down)` statement lists. -/
def generateCreateIndex (dialect : DbDialect) (table : String) (index : TableIndex) :
    List String × List String :=
  let tableName := quote dialect table
  let indexName := quote dialect index.name
  let columns := joinSep ", " (index.columns.map (quote dialect))
  let unique := if index.unique then "UNIQUE " else ""
  let createSQL :=
    "CREATE " ++ unique ++ "INDEX " ++ indexName ++ " ON " ++ tableName ++ " (" ++
      columns ++ ");"
  let dropSQL :=
    "DROP INDEX " ++
      (match dialect with
        | .mysql => indexName ++ " ON " ++ tableName
        | _ => indexName) ++ ";"
  ([createSQL], [dropSQL])

/-- `SqlGenerator.generateDropIndex`: the exact swap of `generateCreateIndex`. -/
def generateDropIndex (dialect : DbDialect) (table : String) (index : TableIndex) :
    List String × List String :=
  ((generateCreateIndex dialect table index).2, (generateCreateIndex dialect table index).1)

/-- The `ON DELETE` / `ON UPDATE` suffixes of the foreign-key statements
(the JS truthiness test collapses to: present and non-empty). -/
def fkActionClause (keyword : String) : Option String → String
  | some a => if a == "" then "" else " " ++ keyword ++ " " ++ a
  | none => ""

/-- The ADD CONSTRAINT statement of `generateAddForeignKey` (up) and
`generateDropForeignKey` (down). -/
def addForeignKeyStatement (dialect : DbDialect) (table : String)
    (foreignKey : ForeignKey) : String :=
  match dialect with
  | .sqlite => "-- SQLite doesn't support ADD CONSTRAINT, define foreign keys in CREATE TABLE"
  | _ =>
    "ALTER TABLE " ++ quote dialect table ++ " ADD CONSTRAINT " ++
      quote dialect foreignKey.name ++ " FOREIGN KEY (" ++ quote dialect foreignKey.column ++
      ") REFERENCES " ++ quote dialect foreignKey.referencedTable ++ "(" ++
      quote dialect foreignKey.referencedColumn ++ ")" ++
      fkActionClause "ON DELETE" foreignKey.onDelete ++
      fkActionClause "ON UPDATE" foreignKey.onUpdate ++ ";"

/-- The DROP CONSTRAINT statement of `generateAddForeignKey` (down) and
`generateDropForeignKey` (up). -/
def dropForeignKeyStatement (dialect : DbDialect) (table : String)
    (foreignKey : ForeignKey) : String :=
  match dialect with
  | .sqlite => "-- SQLite doesn't support DROP CONSTRAINT"
  | _ =>
    "ALTER TABLE " ++ quote dialect table ++ " DROP CONSTRAINT " ++
      quote dialect foreignKey.name ++ ";"

/-- `SqlGenerator.generateAddForeignKey`: `(up, down)` statement lists. -/
def generateAddForeignKey (dialect : DbDialect) (table : String)
    (foreignKey : ForeignKey) : List String × List String :=
  ([addForeignKeyStatement dialect table foreignKey],
    [dropForeignKeyStatement dialect table foreignKey])

/-- `SqlGenerator.generateDropForeignKey`: the exact swap. -/
def generateDropForeignKey (dialect : DbDialect) (table : String)
    (foreignKey : ForeignKey) : List String × List String :=
  ([dropForeignKeyStatement dialect table foreignKey],
    [addForeignKeyStatement dialect table foreignKey])

/-- `SqlGenerator.generateChangeSQL`: `(up, down)` statement lists for one
`SchemaChange`.  The `alter_table` case is `SqlGenerator.generateAlterTable`,
which appends each nested change's up and down statements in order. -/
def generateChangeSQL (dialect : DbDialect) : SchemaChange → List String × List String
  | .create_table table tableSchema => generateCreateTable dialect table tableSchema
  | .drop_table table tableSchema => generateDropTable dialect table tableSchema
  | .alter_table table changes _ _ =>
    changes.foldl
      (fun acc tc =>
        let ud := generateTableChange dialect table tc
        (acc.1 ++ ud.1, acc.2 ++ ud.2))
      ([], [])
  | .create_index table index => generateCreateIndex dialect table index
  | .drop_index table index => generateDropIndex dialect table index
  | .add_foreign_key table fk => generateAddForeignKey dialect table fk
  | .drop_foreign_key table fk => generateDropForeignKey dialect table fk

/-- The `order` array of `SqlGenerator.orderChanges`, as ranks: position of a
change's `type` tag in
`[drop_foreign_key, drop_index, alter_table, drop_table, create_table,
create_index, add_foreign_key]`. -/
def changeRank : SchemaChange → Nat
  | .drop_foreign_key .. => 0
  | .drop_index .. => 1
  | .alter_table .. => 2
  | .drop_table .. => 3
  | .create_table .. => 4
  | .create_index .. => 5
  | .add_foreign_key .. => 6

/-- Stable insertion into a sorted list: the new element goes after every
element it ties with. -/
def stableInsert {α : Type} (le : α → α → Bool) (a : α) : List α → List α
  | [] => [a]
  | b :: l => if le b a then b :: stableInsert le a l else a :: b :: l

/-- Stable insertion sort.  A stable sort's output is uniquely determined by
the comparator, so this models any stable sorting algorithm. -/
def stableSort {α : Type} (le : α → α → Bool) (l : List α) : List α :=
  l.foldl (fun acc a => stableInsert le a acc) []

/-- `SqlGenerator.orderChanges`: `changes.sort((a, b) => order.indexOf(a.type)
- order.indexOf(b.type))`.  `Array.prototype.sort` is a stable in-place sort
(ECMAScript 2019), so this is the stable sort by `changeRank`; note the
source sorts the caller's array in place, so this list is also what the
caller's array holds after the call. -/
def orderChanges (changes : List SchemaChange) : List SchemaChange :=
  stableSort (fun a b => decide (changeRank a ≤ changeRank b)) changes

/-- After `SqlGenerator.generate(changes)` returns, the caller's `changes`
array holds exactly this list: `orderChanges` sorts the argument array in
place via `Array.prototype.sort`. -/
def callerArrayAfterGenerate (changes : List SchemaChange) : List SchemaChange :=
  orderChanges changes

/-- `SqlGenerator.generate`: process the ordered changes, appending up
statements (`push`) and prepending each change's down statements (`unshift`). -/
def generate (dialect : DbDialect) (changes : List SchemaChange) : GeneratedSql :=
  let orderedChanges := orderChanges changes
  let acc := orderedChanges.foldl
    (fun acc change =>
      let ud := generateChangeSQL dialect change
      (acc.1 ++ ud.1, ud.2 ++ acc.2))
    (([] : List String), ([] : List String))
  ⟨acc.1, acc.2⟩

/-! ### Introspector (src/schema-introspector.ts)

The introspector runs catalog queries / pragmas against the live database and
maps the returned rows to the normalized model.  The embedding takes the
catalog as explicit data — one row structure per query result shape — and
models each WHERE clause the database would evaluate as a filter. -/

/-- A row of the PostgreSQL column query (information_schema.columns joined
with the primary-key subquery). -/
structure PgColumnRow where
  column_name : String
  data_type : String
  is_nullable : String
  column_default : Option String
  is_primary_key : Bool
deriving DecidableEq, Repr

/-- A row of the PostgreSQL index query (pg_indexes joined with pg_index). -/
structure PgIndexRow where
  indexname : String
  indexdef : String
  indisunique : Bool
deriving DecidableEq, Repr

/-- A row of the PostgreSQL foreign-key query. -/
structure PgFkRow where
  constraint_name : String
  column_name : String
  foreign_table_name : String
  foreign_column_name : String
  update_rule : String
  delete_rule : String
deriving DecidableEq, Repr

/-- The PostgreSQL catalog entry for one table in schema `public`. -/
structure PgTableCatalog where
  tablename : String
  columns : List PgColumnRow
  indexes : List PgIndexRow
  foreignKeys : List PgFkRow
deriving DecidableEq, Repr

/-- `SchemaIntrospector.normalizePostgreSQLType`. -/
def normalizePostgreSQLType (type : String) : String :=
  (mapGet
    [("character varying", "varchar"), ("timestamp without time zone", "timestamp"),
      ("timestamp with time zone", "timestamptz"), ("double precision", "double"),
      ("bigint", "bigint"), ("integer", "integer"), ("smallint", "smallint"),
      ("boolean", "boolean"), ("text", "text"), ("json", "json"), ("jsonb", "jsonb"),
      ("uuid", "uuid"), ("date", "date"), ("time", "time")]
    type).getD type

/-- JS `indexdef.match(/\(([^)]+)\)/)`: the first parenthesised, non-empty
run of characters containing no closing parenthesis.  On no match at a
position the scan advances one character, as the regex engine does. -/
def firstParenGroup : List Char → Option (List Char)
  | [] => none
  | c :: rest =>
    if c == '(' then
      let grp := rest.takeWhile (fun d => d != ')')
      if grp.isEmpty then firstParenGroup rest
      else if (rest.drop grp.length).head? == some ')' then some grp
      else firstParenGroup rest
    else firstParenGroup rest

/-- The index-column extraction of `introspectPostgreSQL`:
`match[1].split(",").map((c) => c.trim())`, or `[]` when the regex does not
match. -/
def parsePgIndexColumns (indexdef : String) : List String :=
  match firstParenGroup indexdef.data with
  | some grp => (splitChar ',' grp).map (fun cs => trimString ⟨cs⟩)
  | none => []

/-- The column-row mapping of `introspectPostgreSQL`. -/
def pgColumnOfRow (col : PgColumnRow) : TableColumn :=
  ⟨col.column_name, normalizePostgreSQLType col.data_type, col.is_nullable == "NO",
    col.column_default, col.is_primary_key,
    match col.column_default with
    | some s => strIncludes s "nextval"
    | none => false⟩

/-- The index-row mapping of `introspectPostgreSQL`. -/
def pgIndexOfRow (idx : PgIndexRow) : TableIndex :=
  ⟨idx.indexname, parsePgIndexColumns idx.indexdef, idx.indisunique⟩

/-- The foreign-key-row mapping of `introspectPostgreSQL`
(`NO ACTION` rules are normalized to `undefined`). -/
def pgFkOfRow (fk : PgFkRow) : ForeignKey :=
  ⟨fk.constraint_name, fk.column_name, fk.foreign_table_name, fk.foreign_column_name,
    if fk.delete_rule != "NO ACTION" then some fk.delete_rule else none,
    if fk.update_rule != "NO ACTION" then some fk.update_rule else none⟩

/-- The per-table body of `introspectPostgreSQL`. -/
def pgTableSchemaOf (t : PgTableCatalog) : TableSchema :=
  let columns := t.columns.map pgColumnOfRow
  let indexes :=
    (t.indexes.filter (fun idx => !strEndsWith idx.indexname "_pkey")).map pgIndexOfRow
  let foreignKeys := t.foreignKeys.map pgFkOfRow
  let primaryKey := (columns.filter (·.primaryKey)).map (·.name)
  ⟨t.tablename, columns, indexes, foreignKeys, primaryKey⟩

/-- `SchemaIntrospector.introspectPostgreSQL`.  The table query carries
`AND tablename != '__drizzle_migrations'`, evaluated here as a filter on the
catalog. -/
def introspectPostgreSQL (catalog : List PgTableCatalog) : DatabaseSchema :=
  let rows := catalog.filter (fun t => t.tablename != "__drizzle_migrations")
  ⟨mapFromList (rows.map (fun t => (t.tablename, pgTableSchemaOf t)))⟩

/-- A row of the MySQL column query.  The source reads each field as
`row.alias || row.UPPERCASE`, which collapses to one field per alias here. -/
structure MysqlColumnRow where
  column_name : String
  data_type : String
  is_nullable : String
  column_default : Option String
  column_key : String
  extra : String
deriving DecidableEq, Repr

/-- A row of the MySQL index query (information_schema.STATISTICS, ordered by
index name and sequence in index). -/
structure MysqlIndexRow where
  index_name : String
  column_name : String
  non_unique : Nat
deriving DecidableEq, Repr

/-- A row of the MySQL foreign-key query (no referential actions fetched). -/
structure MysqlFkRow where
  constraint_name : String
  column_name : String
  referenced_table : String
  referenced_column : String
deriving DecidableEq, Repr

/-- The MySQL catalog entry for one table of the current database. -/
structure MysqlTableCatalog where
  table_name : String
  columns : List MysqlColumnRow
  indexes : List MysqlIndexRow
  foreignKeys : List MysqlFkRow
deriving DecidableEq, Repr

/-- `SchemaIntrospector.normalizeMySQLType`. -/
def normalizeMySQLType (type : String) : String :=
  (mapGet
    [("varchar", "varchar"), ("int", "int"), ("bigint", "bigint"),
      ("tinyint", "tinyint"), ("smallint", "smallint"), ("mediumint", "mediumint"),
      ("text", "text"), ("longtext", "longtext"), ("datetime", "datetime"),
      ("timestamp", "timestamp"), ("date", "date"), ("boolean", "boolean"),
      ("json", "json"), ("decimal", "decimal"), ("float", "float"),
      ("double", "double")]
    type).getD type

/-- The column-row mapping of `introspectMySQL`. -/
def mysqlColumnOfRow (col : MysqlColumnRow) : TableColumn :=
  ⟨col.column_name, normalizeMySQLType col.data_type, col.is_nullable == "NO",
    col.column_default, col.column_key == "PRI", strIncludes col.extra "auto_increment"⟩

/-- The index grouping of `introspectMySQL`: fold the per-column rows into an
insertion-ordered map keyed by index name; `unique` is fixed by the first row
(`NON_UNIQUE = 0`), and each row appends its column. -/
def mysqlGroupIndexes (rows : List MysqlIndexRow) : List TableIndex :=
  let indexMap := rows.foldl
    (fun m idx =>
      let m :=
        if mapHas m idx.index_name then m
        else mapSet m idx.index_name (([] : List String), idx.non_unique == 0)
      match mapGet m idx.index_name with
      | some (cols, uniq) => mapSet m idx.index_name (cols ++ [idx.column_name], uniq)
      | none => m)
    []
  indexMap.map (fun p => ⟨p.1, p.2.1, p.2.2⟩)

/-- The foreign-key-row mapping of `introspectMySQL` (`onDelete`/`onUpdate`
are never set by this dialect's query). -/
def mysqlFkOfRow (fk : MysqlFkRow) : ForeignKey :=
  ⟨fk.constraint_name, fk.column_name, fk.referenced_table, fk.referenced_column,
    none, none⟩

/-- The per-table body of `introspectMySQL`. -/
def mysqlTableSchemaOf (t : MysqlTableCatalog) : TableSchema :=
  let columns := t.columns.map mysqlColumnOfRow
  let indexes := mysqlGroupIndexes t.indexes
  let foreignKeys := t.foreignKeys.map mysqlFkOfRow
  let primaryKey := (columns.filter (·.primaryKey)).map (·.name)
  ⟨t.table_name, columns, indexes, foreignKeys, primaryKey⟩

/-- `SchemaIntrospector.introspectMySQL`.  The table query carries
`AND TABLE_NAME != '__drizzle_migrations'` (the `INDEX_NAME != 'PRIMARY'`
filter of the index query is part of the catalog row set handed in). -/
def introspectMySQL (catalog : List MysqlTableCatalog) : DatabaseSchema :=
  let rows := catalog.filter (fun t => t.table_name != "__drizzle_migrations")
  ⟨mapFromList (rows.map (fun t => (t.table_name, mysqlTableSchemaOf t)))⟩

/-- A row of SQLite `PRAGMA table_info`. -/
structure SqliteColumnRow where
  name : String
  type : String
  notnull : Nat
  dflt_value : Option String
  pk : Nat
deriving DecidableEq, Repr

/-- A row of SQLite `PRAGMA index_list`, with the column names its
`PRAGMA index_info` call returns attached. -/
structure SqliteIndexRow where
  name : String
  unique : Nat
  origin : String
  columnNames : List String
deriving DecidableEq, Repr

/-- A row of SQLite `PRAGMA foreign_key_list` (`fromCol`/`toCol` are the
pragma's `from`/`to` fields; `from` is a Lean keyword). -/
structure SqliteFkRow where
  fromCol : String
  table : String
  toCol : String
  on_delete : String
  on_update : String
deriving DecidableEq, Repr

/-- The SQLite catalog entry for one table of sqlite_master. -/
structure SqliteTableCatalog where
  name : String
  columns : List SqliteColumnRow
  indexes : List SqliteIndexRow
  foreignKeys : List SqliteFkRow
deriving DecidableEq, Repr

/-- `SchemaIntrospector.normalizeSQLiteType`. -/
def normalizeSQLiteType (type : String) : String :=
  let typeUpper := upperString type
  if strIncludes typeUpper "INT" then "integer"
  else if strIncludes typeUpper "CHAR" || strIncludes typeUpper "TEXT" then "text"
  else if strIncludes typeUpper "REAL" || strIncludes typeUpper "FLOA" ||
      strIncludes typeUpper "DOUB" then "real"
  else if strIncludes typeUpper "BLOB" then "blob"
  else "text"

/-- SQLite `name LIKE 'sqlite\x5f%'`: `LIKE` is ASCII case-insensitive, `_`
matches exactly one character and `%` any run, so this is: the lowercased
name starts with `sqlite` and has at least one further character. -/
def likeSqlitePattern (name : String) : Bool :=
  "sqlite".data.isPrefixOf (lowerString name).data && name.length ≥ 7

/-- The column-row mapping of `introspectSQLite`. -/
def sqliteColumnOfRow (col : SqliteColumnRow) : TableColumn :=
  ⟨col.name, normalizeSQLiteType col.type, col.notnull == 1, col.dflt_value,
    col.pk == 1, col.pk == 1 && upperString col.type == "INTEGER"⟩

/-- The foreign-key-row mapping of `introspectSQLite`: SQLite pragmas expose
no constraint name, so one is synthesized as
`fk_<tableName>_<from>_<referencedTable>`. -/
def sqliteFkOfRow (tableName : String) (fk : SqliteFkRow) : ForeignKey :=
  ⟨"fk_" ++ tableName ++ "_" ++ fk.fromCol ++ "_" ++ fk.table,
    fk.fromCol, fk.table, fk.toCol,
    if fk.on_delete != "NO ACTION" then some fk.on_delete else none,
    if fk.on_update != "NO ACTION" then some fk.on_update else none⟩

/-- The per-table body of `introspectSQLite` (indexes with `origin = 'pk'`
are skipped). -/
def sqliteTableSchemaOf (t : SqliteTableCatalog) : TableSchema :=
  let columns := t.columns.map sqliteColumnOfRow
  let indexes := (t.indexes.filter (fun idx => idx.origin != "pk")).map
    (fun idx => ⟨idx.name, idx.columnNames, idx.unique == 1⟩)
  let foreignKeys := t.foreignKeys.map (sqliteFkOfRow t.name)
  let primaryKey := (columns.filter (·.primaryKey)).map (·.name)
  ⟨t.name, columns, indexes, foreignKeys, primaryKey⟩

/-- `SchemaIntrospector.introspectSQLite`.  The sqlite_master query carries
`AND name != '__drizzle_migrations' AND name NOT LIKE 'sqlite\x5f%'`. -/
def introspectSQLite (catalog : List SqliteTableCatalog) : DatabaseSchema :=
  let rows := catalog.filter
    (fun t => t.name != "__drizzle_migrations" && !likeSqlitePattern t.name)
  ⟨mapFromList (rows.map (fun t => (t.name, sqliteTableSchemaOf t)))⟩

/-- The dialect-specific catalog state an `introspect()` call reads. -/
inductive CatalogData where
  | postgresql (tables : List PgTableCatalog)
  | mysql (tables : List MysqlTableCatalog)
  | sqlite (tables : List SqliteTableCatalog)
deriving DecidableEq, Repr

/-- `SchemaIntrospector.introspect`: dispatch on the dialect. -/
def introspect : CatalogData → DatabaseSchema
  | .postgresql c => introspectPostgreSQL c
  | .mysql c => introspectMySQL c
  | .sqlite c => introspectSQLite c

/-! ### Concrete sample data for witnesses and counterexamples -/

/-- Sample auto-increment integer primary-key column. -/
def exColumnId : TableColumn := ⟨"id", "integer", true, none, true, true⟩

/-- Sample varchar column with a default value. -/
def exColumnEmail : TableColumn := ⟨"email", "varchar", true, some "0", false, false⟩

/-- Sample unique index. -/
def exIndex : TableIndex := ⟨"idx_users_email", ["email"], true⟩

/-- Sample foreign key with an ON DELETE action. -/
def exFk : ForeignKey := ⟨"fk_users_org", "org_id", "orgs", "id", some "CASCADE", none⟩

/-- Sample table exercising columns, an index and a foreign key. -/
def exUsersTable : TableSchema :=
  ⟨"users", [exColumnId, exColumnEmail], [exIndex], [exFk], ["id"]⟩

/-- Sample one-table database schema. -/
def exSchema : DatabaseSchema := ⟨[("users", exUsersTable)]⟩

/-- Sample plain integer column named `a`. -/
def exColA : TableColumn := ⟨"a", "integer", false, none, false, false⟩

/-- Sample plain integer column named `b`. -/
def exColB : TableColumn := ⟨"b", "integer", false, none, false, false⟩

/-- Sample table with no columns (payload filler for alter_table changes). -/
def exEmptyTable : TableSchema := ⟨"t", [], [], [], []⟩

/-- An `alter_table` change adding two columns, so its up and down blocks
hold two statements each. -/
def exAlterChange : SchemaChange :=
  .alter_table "t" [.add_column "a" exColA, .add_column "b" exColB] exEmptyTable exEmptyTable

/-- Column whose semantic type `uuid` is mapped for postgresql but unmapped
for sqlite. -/
def exUuidColumn : TableColumn := ⟨"ref", "uuid", false, none, false, false⟩

/-- Column whose semantic type `money` is unmapped in every dialect table. -/
def exMoneyColumn : TableColumn := ⟨"price", "money", false, none, false, false⟩

/-- Composite-primary-key table: both columns carry `primaryKey = true` and
neither is auto-increment. -/
def exUserRolesTable : TableSchema :=
  ⟨"user_roles",
    [⟨"user_id", "integer", true, none, true, false⟩,
      ⟨"role_id", "integer", true, none, true, false⟩],
    [], [], ["user_id", "role_id"]⟩

/-- The index `idx_x`, non-unique. -/
def exIdxNonUnique : TableIndex := ⟨"idx_x", ["email"], false⟩

/-- The index `idx_x`, unique. -/
def exIdxUnique : TableIndex := ⟨"idx_x", ["email"], true⟩

/-- Table carrying the non-unique `idx_x`. -/
def exTableIdxOld : TableSchema := ⟨"users", [exColumnEmail], [exIdxNonUnique], [], []⟩

/-- The same table, with `idx_x` now unique. -/
def exTableIdxNew : TableSchema := ⟨"users", [exColumnEmail], [exIdxUnique], [], []⟩

/-- A create_table change (rank 4 in the generator's order). -/
def exCreateChange : SchemaChange := .create_table "a" exEmptyTable

/-- A drop_foreign_key change (rank 0 in the generator's order). -/
def exDropFkChange : SchemaChange := .drop_foreign_key "b" exFk

/-- SQLite catalog holding one user table named `custom_migrations`. -/
def exCustomCatalog : List SqliteTableCatalog := [⟨"custom_migrations", [], [], []⟩]

/-- SQLite foreign-key pragma row: `user_id` referencing `users.id`. -/
def exFkRow1 : SqliteFkRow := ⟨"user_id", "users", "id", "NO ACTION", "NO ACTION"⟩

/-- SQLite foreign-key pragma row from the same column to the same table but
a different referenced column. -/
def exFkRow2 : SqliteFkRow := ⟨"user_id", "users", "uuid", "CASCADE", "NO ACTION"⟩

/-! ### Lemmas on the `Map` model -/

theorem mapHas_eq_true_iff {β : Type} (m : List (String × β)) (k : String) :
    mapHas m k = true ↔ k ∈ m.map Prod.fst := by
  constructor
  · intro h
    rcases List.any_eq_true.mp h with ⟨p, hp, he⟩
    exact List.mem_map.mpr ⟨p, hp, eq_of_beq he⟩
  · intro h
    rcases List.mem_map.mp h with ⟨p, hp, he⟩
    exact List.any_eq_true.mpr ⟨p, hp, by simp [he]⟩

theorem mapHas_of_mem {β : Type} {m : List (String × β)} {p : String × β} (h : p ∈ m) :
    mapHas m p.1 = true :=
  (mapHas_eq_true_iff m p.1).mpr (List.mem_map.mpr ⟨p, h, rfl⟩)

theorem find?_eq_of_nodupKeys {β : Type} {m : List (String × β)} {k : String} {v : β}
    (hnd : NodupKeys m) (hmem : (k, v) ∈ m) :
    m.find? (fun p => p.1 == k) = some (k, v) := by
  induction m with
  | nil => cases hmem
  | cons q t ih =>
    have hnd' := hnd
    simp only [NodupKeys, List.map_cons, List.nodup_cons] at hnd'
    obtain ⟨hnotin, hndt⟩ := hnd'
    rcases List.mem_cons.mp hmem with h | h
    · rw [← h]
      exact List.find?_cons_of_pos _ (by simp)
    · have hq : (q.1 == k) = false := by
        rw [beq_eq_false_iff_ne]
        intro he
        exact hnotin (he ▸ List.mem_map.mpr ⟨(k, v), h, rfl⟩)
      rw [List.find?_cons, hq]
      exact ih hndt h

theorem mapGet_eq_of_nodupKeys {β : Type} {m : List (String × β)} {k : String} {v : β}
    (hnd : NodupKeys m) (hmem : (k, v) ∈ m) : mapGet m k = some v := by
  unfold mapGet
  rw [find?_eq_of_nodupKeys hnd hmem]
  rfl

theorem keys_mapSet {β : Type} (m : List (String × β)) (k : String) (v : β) :
    (mapSet m k v).map Prod.fst =
      if mapHas m k then m.map Prod.fst else m.map Prod.fst ++ [k] := by
  unfold mapSet
  split
  · rw [List.map_map]
    apply List.map_congr_left
    intro p _
    by_cases hb : (p.1 == k) = true
    · simp only [Function.comp_apply, if_pos hb]
      exact (eq_of_beq hb).symm
    · simp only [Function.comp_apply, if_neg hb]
  · simp

theorem nodupKeys_mapSet {β : Type} {m : List (String × β)} (k : String) (v : β)
    (hnd : NodupKeys m) : NodupKeys (mapSet m k v) := by
  show ((mapSet m k v).map Prod.fst).Nodup
  rw [keys_mapSet]
  split
  · exact hnd
  · rename_i hhas
    have hk : k ∉ m.map Prod.fst := fun hmem => hhas ((mapHas_eq_true_iff m k).mpr hmem)
    simp [List.nodup_append, hnd, hk]

theorem nodupKeys_foldl_mapSet {β : Type} (l : List (String × β)) :
    ∀ m : List (String × β), NodupKeys m →
      NodupKeys (l.foldl (fun m p => mapSet m p.1 p.2) m) := by
  induction l with
  | nil => intro m h; exact h
  | cons p t ih =>
    intro m h
    exact ih _ (nodupKeys_mapSet p.1 p.2 h)

theorem nodupKeys_mapFromList {β : Type} (l : List (String × β)) :
    NodupKeys (mapFromList l) :=
  nodupKeys_foldl_mapSet l [] List.Pairwise.nil

theorem foldl_mapSet_eq_append {β : Type} :
    ∀ (l m : List (String × β)), NodupKeys (m ++ l) →
      l.foldl (fun m p => mapSet m p.1 p.2) m = m ++ l := by
  intro l
  induction l with
  | nil => intro m _; simp
  | cons p t ih =>
    intro m h
    have hfresh : mapHas m p.1 = false := by
      rw [← Bool.not_eq_true, mapHas_eq_true_iff]
      intro hk
      have h' : ((m.map Prod.fst) ++ (p.1 :: t.map Prod.fst)).Nodup := by
        simpa [NodupKeys, List.map_append] using h
      exact (List.nodup_append.mp h').2.2 hk (List.mem_cons_self _ _)
    have hset : mapSet m p.1 p.2 = m ++ [p] := by
      unfold mapSet
      rw [hfresh]
      simp
    rw [List.foldl_cons, hset]
    have h2 : NodupKeys ((m ++ [p]) ++ t) := by
      have he : (m ++ [p]) ++ t = m ++ p :: t := by simp
      rw [he]
      exact h
    rw [ih (m ++ [p]) h2]
    simp

theorem mapFromList_eq_self {β : Type} (l : List (String × β)) (h : NodupKeys l) :
    mapFromList l = l := by
  unfold mapFromList
  have := foldl_mapSet_eq_append l [] h
  simpa using this

theorem mem_keys_mapSet {β : Type} {m : List (String × β)} {k k' : String} {v : β}
    (h : k' ∈ (mapSet m k v).map Prod.fst) : k' ∈ m.map Prod.fst ∨ k' = k := by
  rw [keys_mapSet] at h
  by_cases hh : mapHas m k = true
  · rw [if_pos hh] at h
    exact Or.inl h
  · rw [if_neg hh] at h
    rcases List.mem_append.mp h with h' | h'
    · exact Or.inl h'
    · exact Or.inr (by simpa using h')

theorem mem_keys_foldl_mapSet {β : Type} :
    ∀ (l m : List (String × β)) (k : String),
      k ∈ ((l.foldl (fun m p => mapSet m p.1 p.2) m).map Prod.fst) →
      k ∈ m.map Prod.fst ∨ k ∈ l.map Prod.fst := by
  intro l
  induction l with
  | nil => intro m k h; exact Or.inl h
  | cons p t ih =>
    intro m k h
    rw [List.foldl_cons] at h
    rcases ih _ k h with h' | h'
    · rcases mem_keys_mapSet h' with h'' | h''
      · exact Or.inl h''
      · exact Or.inr (by simp [h''])
    · exact Or.inr (by simp [h'])

theorem mem_keys_mapFromList {β : Type} (l : List (String × β)) (k : String)
    (h : k ∈ (mapFromList l).map Prod.fst) : k ∈ l.map Prod.fst := by
  rcases mem_keys_foldl_mapSet l [] k h with h' | h'
  · cases h'
  · exact h'

theorem mapHas_mapFromList_eq_false {β : Type} (l : List (String × β)) (k : String)
    (h : ∀ p ∈ l, p.1 ≠ k) : mapHas (mapFromList l) k = false := by
  rw [← Bool.not_eq_true, mapHas_eq_true_iff]
  intro hk
  rcases List.mem_map.mp (mem_keys_mapFromList l k hk) with ⟨p, hp, he⟩
  exact h p hp he

/-! ### Lemmas on the Differ comparisons -/

theorem columnsAreDifferent_self (c : TableColumn) : columnsAreDifferent c c = false := by
  simp [columnsAreDifferent, defaultsAreDifferent]

theorem columnsMatchFrom_self :
    ∀ (rest pre : List String), columnsMatchFrom (pre ++ rest) rest pre.length = true := by
  intro rest
  induction rest with
  | nil => intro pre; rfl
  | cons c cs ih =>
    intro pre
    unfold columnsMatchFrom
    have h1 : (pre ++ c :: cs)[pre.length]? = some c := by
      rw [List.getElem?_append_right (Nat.le_refl pre.length)]
      simp
    have h2 : columnsMatchFrom (pre ++ c :: cs) cs (pre.length + 1) = true := by
      have := ih (pre ++ [c])
      simpa [List.append_assoc, List.length_append] using this
    simp [h1, h2]

theorem indexesAreDifferent_self (i : TableIndex) : indexesAreDifferent i i = false := by
  have h := columnsMatchFrom_self i.columns []
  simp only [List.nil_append, List.length_nil] at h
  simp [indexesAreDifferent, h]

theorem foreignKeysAreDifferent_self (f : ForeignKey) :
    foreignKeysAreDifferent f f = false := by
  simp [foreignKeysAreDifferent]

theorem diffTables_eq_nil {ct dt : TableSchema} (h : ct.columns = dt.columns) :
    diffTables ct dt = [] := by
  unfold diffTables
  rw [h]
  have hnd : NodupKeys (mapFromList (dt.columns.map fun c => (c.name, c))) :=
    nodupKeys_mapFromList _
  have h1 : (mapFromList (dt.columns.map fun c => (c.name, c))).filterMap
      (fun p => if mapHas (mapFromList (dt.columns.map fun c => (c.name, c))) p.1 then none
        else some (TableChange.drop_column p.1 p.2)) = [] := by
    rw [List.filterMap_eq_nil_iff]
    intro p hp
    simp [mapHas_of_mem hp]
  have h2 : (mapFromList (dt.columns.map fun c => (c.name, c))).filterMap
      (fun p => match mapGet (mapFromList (dt.columns.map fun c => (c.name, c))) p.1 with
        | none => some (TableChange.add_column p.1 p.2)
        | some currentCol =>
          if columnsAreDifferent currentCol p.2 then
            some (TableChange.modify_column p.1 currentCol p.2)
          else none) = [] := by
    rw [List.filterMap_eq_nil_iff]
    intro p hp
    have hget : mapGet (mapFromList (dt.columns.map fun c => (c.name, c))) p.1 = some p.2 :=
      mapGet_eq_of_nodupKeys hnd (by simpa using hp)
    rw [hget]
    simp [columnsAreDifferent_self]
  simp [h1, h2]

theorem diffIndexes_eq_nil {ct dt : TableSchema} (h : ct.indexes = dt.indexes)
    (t : String) : diffIndexes ct dt t = [] := by
  unfold diffIndexes
  rw [h]
  have hnd : NodupKeys (mapFromList (dt.indexes.map fun i => (i.name, i))) :=
    nodupKeys_mapFromList _
  have h1 : (mapFromList (dt.indexes.map fun i => (i.name, i))).filterMap
      (fun p => if mapHas (mapFromList (dt.indexes.map fun i => (i.name, i))) p.1 then none
        else some (SchemaChange.drop_index t p.2)) = [] := by
    rw [List.filterMap_eq_nil_iff]
    intro p hp
    simp [mapHas_of_mem hp]
  have h2 : (mapFromList (dt.indexes.map fun i => (i.name, i))).flatMap
      (fun p => match mapGet (mapFromList (dt.indexes.map fun i => (i.name, i))) p.1 with
        | none => [SchemaChange.create_index t p.2]
        | some currentIdx =>
          if indexesAreDifferent currentIdx p.2 then
            [SchemaChange.drop_index t currentIdx, SchemaChange.create_index t p.2]
          else []) = [] := by
    rw [List.flatMap_eq_nil_iff]
    intro p hp
    have hget : mapGet (mapFromList (dt.indexes.map fun i => (i.name, i))) p.1 = some p.2 :=
      mapGet_eq_of_nodupKeys hnd (by simpa using hp)
    rw [hget]
    simp [indexesAreDifferent_self]
  simp [h1, h2]

theorem diffForeignKeys_eq_nil {ct dt : TableSchema} (h : ct.foreignKeys = dt.foreignKeys)
    (t : String) : diffForeignKeys ct dt t = [] := by
  unfold diffForeignKeys
  rw [h]
  have hnd : NodupKeys (mapFromList (dt.foreignKeys.map fun fk => (fk.name, fk))) :=
    nodupKeys_mapFromList _
  have h1 : (mapFromList (dt.foreignKeys.map fun fk => (fk.name, fk))).filterMap
      (fun p =>
        if mapHas (mapFromList (dt.foreignKeys.map fun fk => (fk.name, fk))) p.1 then none
        else some (SchemaChange.drop_foreign_key t p.2)) = [] := by
    rw [List.filterMap_eq_nil_iff]
    intro p hp
    simp [mapHas_of_mem hp]
  have h2 : (mapFromList (dt.foreignKeys.map fun fk => (fk.name, fk))).flatMap
      (fun p =>
        match mapGet (mapFromList (dt.foreignKeys.map fun fk => (fk.name, fk))) p.1 with
        | none => [SchemaChange.add_foreign_key t p.2]
        | some currentFk =>
          if foreignKeysAreDifferent currentFk p.2 then
            [SchemaChange.drop_foreign_key t currentFk, SchemaChange.add_foreign_key t p.2]
          else []) = [] := by
    rw [List.flatMap_eq_nil_iff]
    intro p hp
    have hget :
        mapGet (mapFromList (dt.foreignKeys.map fun fk => (fk.name, fk))) p.1 = some p.2 :=
      mapGet_eq_of_nodupKeys hnd (by simpa using hp)
    rw [hget]
    simp [foreignKeysAreDifferent_self]
  simp [h1, h2]

/-! ### Lemmas on the stable sort -/

theorem stableInsert_perm {α : Type} (le : α → α → Bool) (a : α) (l : List α) :
    (stableInsert le a l).Perm (a :: l) := by
  induction l with
  | nil => simp [stableInsert]
  | cons b t ih =>
    unfold stableInsert
    by_cases hba : le b a = true
    · rw [if_pos hba]
      exact (ih.cons b).trans (List.Perm.swap a b t)
    · rw [if_neg hba]

theorem stableSort_perm {α : Type} (le : α → α → Bool) (l : List α) :
    (stableSort le l).Perm l := by
  have aux : ∀ (l acc : List α),
      (l.foldl (fun acc a => stableInsert le a acc) acc).Perm (acc ++ l) := by
    intro l
    induction l with
    | nil => intro acc; simp
    | cons a t ih =>
      intro acc
      rw [List.foldl_cons]
      refine (ih (stableInsert le a acc)).trans ?_
      refine (List.Perm.append_right t (stableInsert_perm le a acc)).trans ?_
      exact List.perm_middle.symm
  simpa using aux l []

theorem pairwise_stableInsert {α : Type} {le : α → α → Bool}
    (htrans : ∀ a b c, le a b = true → le b c = true → le a c = true)
    (htot : ∀ a b, le a b = true ∨ le b a = true)
    (a : α) (l : List α) (h : l.Pairwise (fun x y => le x y = true)) :
    (stableInsert le a l).Pairwise (fun x y => le x y = true) := by
  induction l with
  | nil => simp [stableInsert]
  | cons b t ih =>
    rw [List.pairwise_cons] at h
    obtain ⟨hb, ht⟩ := h
    unfold stableInsert
    by_cases hba : le b a = true
    · rw [if_pos hba]
      rw [List.pairwise_cons]
      refine ⟨?_, ih ht⟩
      intro x hx
      rcases List.mem_cons.mp ((stableInsert_perm le a t).mem_iff.mp hx) with rfl | hx
      · exact hba
      · exact hb x hx
    · rw [if_neg hba]
      have hab : le a b = true := (htot a b).resolve_right hba
      rw [List.pairwise_cons]
      refine ⟨?_, List.pairwise_cons.mpr ⟨hb, ht⟩⟩
      intro x hx
      rcases List.mem_cons.mp hx with rfl | hx
      · exact hab
      · exact htrans a b x hab (hb x hx)

theorem pairwise_stableSort {α : Type} {le : α → α → Bool}
    (htrans : ∀ a b c, le a b = true → le b c = true → le a c = true)
    (htot : ∀ a b, le a b = true ∨ le b a = true) (l : List α) :
    (stableSort le l).Pairwise (fun x y => le x y = true) := by
  have aux : ∀ (l acc : List α), acc.Pairwise (fun x y => le x y = true) →
      (l.foldl (fun acc a => stableInsert le a acc) acc).Pairwise
        (fun x y => le x y = true) := by
    intro l
    induction l with
    | nil => intro acc h; exact h
    | cons a t ih =>
      intro acc h
      exact ih _ (pairwise_stableInsert htrans htot a acc h)
  exact aux l [] List.Pairwise.nil

/-! ### Lemmas on the SQL Generator -/

theorem generateTableChange_up_length (d : DbDialect) (t : String) (tc : TableChange) :
    (generateTableChange d t tc).1.length = 1 := by
  cases tc <;> rfl

theorem generateTableChange_down_length (d : DbDialect) (t : String) (tc : TableChange) :
    (generateTableChange d t tc).2.length = 1 := by
  cases tc <;> rfl

theorem generateChangeSQL_length_eq (d : DbDialect) (c : SchemaChange) :
    (generateChangeSQL d c).1.length = (generateChangeSQL d c).2.length := by
  cases c with
  | alter_table table changes ct dt =>
    show (changes.foldl
        (fun acc tc =>
          let ud := generateTableChange d table tc
          (acc.1 ++ ud.1, acc.2 ++ ud.2)) ([], [])).1.length = _
    suffices aux : ∀ (l : List TableChange) (u v : List String), u.length = v.length →
        (l.foldl (fun acc tc =>
            let ud := generateTableChange d table tc
            (acc.1 ++ ud.1, acc.2 ++ ud.2)) (u, v)).1.length =
          (l.foldl (fun acc tc =>
              let ud := generateTableChange d table tc
              (acc.1 ++ ud.1, acc.2 ++ ud.2)) (u, v)).2.length by
      exact aux changes [] [] rfl
    intro l
    induction l with
    | nil => intro u v h; exact h
    | cons tc tl ih =>
      intro u v h
      rw [List.foldl_cons]
      exact ih _ _ (by
        simp [List.length_append, h, generateTableChange_up_length,
          generateTableChange_down_length])
  | create_table t s => rfl
  | drop_table t s => rfl
  | create_index t i => rfl
  | drop_index t i => rfl
  | add_foreign_key t f => rfl
  | drop_foreign_key t f => rfl

theorem generate_foldl_spec (d : DbDialect) :
    ∀ (l : List SchemaChange) (u v : List String),
      (l.foldl (fun acc change =>
          let ud := generateChangeSQL d change
          (acc.1 ++ ud.1, ud.2 ++ acc.2)) (u, v)) =
        (u ++ (l.map (fun c => (generateChangeSQL d c).1)).flatten,
          ((l.map (fun c => (generateChangeSQL d c).2)).reverse).flatten ++ v) := by
  intro l
  induction l with
  | nil => intro u v; simp
  | cons c t ih =>
    intro u v
    rw [List.foldl_cons, ih]
    simp [List.flatten_append, List.append_assoc]

theorem generate_spec (d : DbDialect) (changes : List SchemaChange) :
    generate d changes =
      ⟨((orderChanges changes).map (fun c => (generateChangeSQL d c).1)).flatten,
        (((orderChanges changes).map (fun c => (generateChangeSQL d c).2)).reverse).flatten⟩ := by
  unfold generate
  simp only []
  rw [generate_foldl_spec]
  simp

/-- A table whose index list changed in exactly one named place produces one
drop_index of the current definition followed by one create_index of the
desired definition, and nothing else, from `diffIndexes`. -/
theorem diffIndexes_modify (ct dt : TableSchema) (t : String)
    (pre post : List TableIndex) (I J : TableIndex)
    (hci : ct.indexes = pre ++ I :: post)
    (hdi : dt.indexes = pre ++ J :: post)
    (hname : J.name = I.name)
    (hnd : ((pre ++ I :: post).map (fun i => i.name)).Nodup)
    (hdiff : indexesAreDifferent I J = true) :
    diffIndexes ct dt t = [SchemaChange.drop_index t I, SchemaChange.create_index t J] := by
  unfold diffIndexes
  rw [hci, hdi]
  have hkeysC : ((pre ++ I :: post).map (fun i => (i.name, i))).map Prod.fst =
      (pre ++ I :: post).map (fun i => i.name) := by
    rw [List.map_map]
    rfl
  have hkeysD : ((pre ++ J :: post).map (fun i => (i.name, i))).map Prod.fst =
      (pre ++ J :: post).map (fun i => i.name) := by
    rw [List.map_map]
    rfl
  have hnamesEq : (pre ++ J :: post).map (fun i => i.name) =
      (pre ++ I :: post).map (fun i => i.name) := by
    simp [hname]
  have hndc : NodupKeys ((pre ++ I :: post).map (fun i => (i.name, i))) := by
    show (((pre ++ I :: post).map (fun i => (i.name, i))).map Prod.fst).Nodup
    rw [hkeysC]
    exact hnd
  have hndd : NodupKeys ((pre ++ J :: post).map (fun i => (i.name, i))) := by
    show (((pre ++ J :: post).map (fun i => (i.name, i))).map Prod.fst).Nodup
    rw [hkeysD, hnamesEq]
    exact hnd
  have hdrops : ((pre ++ I :: post).map (fun i => (i.name, i))).filterMap
      (fun p => if mapHas ((pre ++ J :: post).map (fun i => (i.name, i))) p.1 then none
        else some (SchemaChange.drop_index t p.2)) = [] := by
    rw [List.filterMap_eq_nil_iff]
    intro p hp
    obtain ⟨i, hi, rfl⟩ := List.mem_map.mp hp
    have hhas : mapHas ((pre ++ J :: post).map (fun i => (i.name, i))) i.name = true := by
      rw [mapHas_eq_true_iff, hkeysD, hnamesEq]
      exact List.mem_map.mpr ⟨i, hi, rfl⟩
    simp only [List.map_append, List.map_cons] at hhas
    simp [hhas]
  have hcreate : ∀ i, i ∈ pre ++ I :: post →
      (match mapGet ((pre ++ I :: post).map (fun i => (i.name, i))) i.name with
        | none => [SchemaChange.create_index t i]
        | some currentIdx =>
          if indexesAreDifferent currentIdx i then
            [SchemaChange.drop_index t currentIdx, SchemaChange.create_index t i]
          else []) = [] := by
    intro i hi
    have hget : mapGet ((pre ++ I :: post).map (fun i => (i.name, i))) i.name = some i :=
      mapGet_eq_of_nodupKeys hndc (List.mem_map.mpr ⟨i, hi, rfl⟩)
    rw [hget]
    simp [indexesAreDifferent_self]
  have hJ : (match mapGet ((pre ++ I :: post).map (fun i => (i.name, i))) J.name with
      | none => [SchemaChange.create_index t J]
      | some currentIdx =>
        if indexesAreDifferent currentIdx J then
          [SchemaChange.drop_index t currentIdx, SchemaChange.create_index t J]
        else []) =
      [SchemaChange.drop_index t I, SchemaChange.create_index t J] := by
    have hget : mapGet ((pre ++ I :: post).map (fun i => (i.name, i))) J.name = some I := by
      rw [hname]
      exact mapGet_eq_of_nodupKeys hndc
        (List.mem_map.mpr ⟨I, List.mem_append_right pre (List.mem_cons_self I post), rfl⟩)
    rw [hget]
    simp [hdiff]
  simp only [mapFromList_eq_self _ hndc, mapFromList_eq_self _ hndd]
  rw [hdrops]
  rw [List.map_append, List.map_cons, List.flatMap_append, List.flatMap_cons]
  have hpre : (pre.map (fun i => (i.name, i))).flatMap
      (fun p => match mapGet ((pre ++ I :: post).map (fun i => (i.name, i))) p.1 with
        | none => [SchemaChange.create_index t p.2]
        | some currentIdx =>
          if indexesAreDifferent currentIdx p.2 then
            [SchemaChange.drop_index t currentIdx, SchemaChange.create_index t p.2]
          else []) = [] := by
    rw [List.flatMap_eq_nil_iff]
    intro p hp
    obtain ⟨i, hi, rfl⟩ := List.mem_map.mp hp
    exact hcreate i (List.mem_append_left _ hi)
  have hpost : (post.map (fun i => (i.name, i))).flatMap
      (fun p => match mapGet ((pre ++ I :: post).map (fun i => (i.name, i))) p.1 with
        | none => [SchemaChange.create_index t p.2]
        | some currentIdx =>
          if indexesAreDifferent currentIdx p.2 then
            [SchemaChange.drop_index t currentIdx, SchemaChange.create_index t p.2]
          else []) = [] := by
    rw [List.flatMap_eq_nil_iff]
    intro p hp
    obtain ⟨i, hi, rfl⟩ := List.mem_map.mp hp
    exact hcreate i (List.mem_append_right _ (List.mem_cons_of_mem I hi))
  rw [hpre, hpost, hJ]
  simp

/-! ### Claim theorems -/

/-- C1: for every `DatabaseSchema` S (satisfying the JS `Map` invariant of
unique table-name keys), `SchemaDiffer(S, S).diff()` returns the empty change
list — no drop_table, create_table, alter_table, index or foreign-key
changes are emitted when current and desired schemas are equal. -/
theorem c1_diff_self_empty (S : DatabaseSchema) (h : NodupKeys S.tables) :
    diff S S = [] := by
  unfold diff
  have h1 : S.tables.filterMap
      (fun p => if mapHas S.tables p.1 then none
        else some (SchemaChange.drop_table p.1 p.2)) = [] := by
    rw [List.filterMap_eq_nil_iff]
    intro p hp
    simp [mapHas_of_mem hp]
  have h2 : S.tables.flatMap
      (fun p => if mapHas S.tables p.1 then []
        else
          SchemaChange.create_table p.1 p.2 ::
            (p.2.indexes.map (fun i => SchemaChange.create_index p.1 i) ++
              p.2.foreignKeys.map (fun fk => SchemaChange.add_foreign_key p.1 fk))) = [] := by
    rw [List.flatMap_eq_nil_iff]
    intro p hp
    simp [mapHas_of_mem hp]
  simp only [h1, h2, List.nil_append]
  rw [List.flatMap_eq_nil_iff]
  intro p hp
  have hget : mapGet S.tables p.1 = some p.2 :=
    mapGet_eq_of_nodupKeys h (by simpa using hp)
  rw [hget]
  simp [diffTables_eq_nil, diffIndexes_eq_nil, diffForeignKeys_eq_nil]

/-- Witness for C1 at a concrete schema with columns, an index and a
foreign key. -/
theorem c1_diff_self_empty_witness :
    NodupKeys exSchema.tables ∧ diff exSchema exSchema = [] :=
  ⟨by decide, c1_diff_self_empty exSchema (by decide)⟩

/-- C2: for every change list and every dialect, `SqlGenerator.generate`
returns upStatements and downStatements of equal length — each change
contributes equally many up and down statements, dialect limitations being
rendered as explanatory comment strings rather than omitted. -/
theorem c2_up_down_count_parity (d : DbDialect) (changes : List SchemaChange) :
    (generate d changes).upStatements.length =
      (generate d changes).downStatements.length := by
  rw [generate_spec]
  simp only [List.length_flatten, List.map_reverse, List.sum_reverse, List.map_map]
  refine congrArg List.sum (List.map_congr_left ?_)
  intro c _
  simpa using generateChangeSQL_length_eq d c

/-- C3 counterexample: for an `alter_table` change carrying two nested column
changes, the down statements are not the statement-level reverse of the up
statements — the multi-statement down block keeps its internal forward
order when prepended. -/
theorem c3_counterexample :
    (generate DbDialect.postgresql [exAlterChange]).downStatements ≠
      ((((orderChanges [exAlterChange]).map
          (fun c => (generateChangeSQL DbDialect.postgresql c).2)).flatten).reverse) := by
  decide

/-- C3 (amended): the down statements are the concatenation, in reverse
change order, of each ordered change's down-statement block, each block kept
in its internal forward order; this is statement-level reversal exactly when
every change contributes at most one statement. -/
theorem c3_down_blocks_reversed (d : DbDialect) (changes : List SchemaChange) :
    (generate d changes).downStatements =
      (((orderChanges changes).map (fun c => (generateChangeSQL d c).2)).reverse).flatten := by
  rw [generate_spec]

/-- C4 counterexample: the semantic type `uuid` is unmapped in the sqlite
type table, and the sqlite rendering of such a column is `TEXT`, not the
uppercased semantic name `UUID`. -/
theorem c4_counterexample :
    mapGet sqliteTypes (lowerString exUuidColumn.type) = none ∧
    getColumnType DbDialect.sqlite exUuidColumn ≠
      upperString (lowerString exUuidColumn.type) := by
  decide

/-- C4 (amended): for a column whose semantic type is not in the target
dialect's type-mapping table, postgresql and mysql fall back to the
uppercased semantic type name, while sqlite falls back to the constant
`TEXT`; none of the three raises an error. -/
theorem c4_unmapped_type_fallback (col : TableColumn) :
    (mapGet pgTypes (lowerString col.type) = none →
      getColumnType DbDialect.postgresql col = upperString (lowerString col.type)) ∧
    (mapGet mysqlTypes (lowerString col.type) = none →
      getColumnType DbDialect.mysql col = upperString (lowerString col.type)) ∧
    (mapGet sqliteTypes (lowerString col.type) = none →
      getColumnType DbDialect.sqlite col = "TEXT") := by
  refine ⟨fun h => ?_, fun h => ?_, fun h => ?_⟩ <;> simp [getColumnType, h]

/-- Witness for C4 (amended) at the unmapped semantic type `money`. -/
theorem c4_unmapped_type_fallback_witness :
    getColumnType DbDialect.postgresql exMoneyColumn = "MONEY" ∧
    getColumnType DbDialect.mysql exMoneyColumn = "MONEY" ∧
    getColumnType DbDialect.sqlite exMoneyColumn = "TEXT" :=
  ⟨((c4_unmapped_type_fallback exMoneyColumn).1 (by decide)).trans (by decide),
    ((c4_unmapped_type_fallback exMoneyColumn).2.1 (by decide)).trans (by decide),
    (c4_unmapped_type_fallback exMoneyColumn).2.2 (by decide)⟩

/-- C5: evaluation at the failing input.  For a table with the composite
primary key (user_id, role_id), the generator renders a per-column
` PRIMARY KEY` clause on BOTH key columns in addition to the table-level
composite clause (the per-column test is only
`column.primaryKey && !column.autoIncrement`, blind to the other columns),
yielding a CREATE TABLE with three PRIMARY KEY clauses — invalid SQL,
contradicting the spec's "single-col pk" rule. -/
theorem c5_composite_pk_failing_input :
    createTableStatement DbDialect.postgresql "user_roles" exUserRolesTable =
      "CREATE TABLE \"user_roles\" (\n  \"user_id\" INTEGER NOT NULL PRIMARY KEY,\n  \"role_id\" INTEGER NOT NULL PRIMARY KEY,\n  PRIMARY KEY (\"user_id\", \"role_id\")\n);" := by
  decide

/-- C6: diffing the empty schema against a schema holding exactly one table T
yields one create_table carrying T, then one create_index per index of T and
one add_foreign_key per foreign key of T; diffing the one-table schema
against the empty schema yields exactly one drop_table carrying T. -/
theorem c6_create_drop_symmetry (T : TableSchema) :
    diff ⟨[]⟩ ⟨[(T.name, T)]⟩ =
      SchemaChange.create_table T.name T ::
        (T.indexes.map (fun i => SchemaChange.create_index T.name i) ++
          T.foreignKeys.map (fun fk => SchemaChange.add_foreign_key T.name fk)) ∧
    diff ⟨[(T.name, T)]⟩ ⟨[]⟩ = [SchemaChange.drop_table T.name T] := by
  constructor
  · simp [diff, mapHas, mapGet]
  · simp [diff, mapHas, mapGet]

/-- C7: for two schemas identical except that one table's index `idx_x`
differs (per `indexesAreDifferent`: unequal unique flag, or unequal column
count, or a positional column-name mismatch), the diff is exactly one
drop_index carrying the current definition immediately followed by one
create_index carrying the desired definition — and nothing else (in
particular no alter-style index change). -/
theorem c7_index_modify_drop_create (t : String) (ct dt : TableSchema)
    (pre post : List TableIndex) (I J : TableIndex)
    (hcols : ct.columns = dt.columns)
    (hfks : ct.foreignKeys = dt.foreignKeys)
    (hci : ct.indexes = pre ++ I :: post)
    (hdi : dt.indexes = pre ++ J :: post)
    (hname : J.name = I.name)
    (hnd : ((pre ++ I :: post).map (fun i => i.name)).Nodup)
    (hdiff : indexesAreDifferent I J = true) :
    diff ⟨[(t, ct)]⟩ ⟨[(t, dt)]⟩ =
      [SchemaChange.drop_index t I, SchemaChange.create_index t J] := by
  have hidx : diffIndexes ct dt t =
      [SchemaChange.drop_index t I, SchemaChange.create_index t J] :=
    diffIndexes_modify ct dt t pre post I J hci hdi hname hnd hdiff
  simp [diff, mapHas, mapGet, diffTables_eq_nil hcols, diffForeignKeys_eq_nil hfks, hidx]

/-- Witness for C7: `idx_x` flips from non-unique to unique on the table
`users`. -/
theorem c7_index_modify_drop_create_witness :
    diff ⟨[("users", exTableIdxOld)]⟩ ⟨[("users", exTableIdxNew)]⟩ =
      [SchemaChange.drop_index "users" exIdxNonUnique,
        SchemaChange.create_index "users" exIdxUnique] :=
  c7_index_modify_drop_create "users" exTableIdxOld exTableIdxNew [] []
    exIdxNonUnique exIdxUnique rfl rfl rfl rfl rfl (by decide) (by decide)

/-- C8 counterexample: `generate` sorts the caller's array in place
(`Array.prototype.sort`), so a change list that is not already in dependency
rank order is reordered — the caller's array does not hold the same elements
in the same order afterwards. -/
theorem c8_counterexample :
    callerArrayAfterGenerate [exCreateChange, exDropFkChange] ≠
      [exCreateChange, exDropFkChange] := by
  decide

/-- C8 (amended): after `generate(changes)` returns, the caller's array holds
a permutation of the original elements, stably reordered into the
generator's dependency rank order; it coincides with the original exactly
when the original was already rank-sorted. -/
theorem c8_caller_array_perm_rank_sorted (changes : List SchemaChange) :
    (callerArrayAfterGenerate changes).Perm changes ∧
    (callerArrayAfterGenerate changes).Pairwise
      (fun a b => changeRank a ≤ changeRank b) := by
  constructor
  · exact stableSort_perm _ changes
  · have htrans : ∀ a b c : SchemaChange,
        decide (changeRank a ≤ changeRank b) = true →
        decide (changeRank b ≤ changeRank c) = true →
        decide (changeRank a ≤ changeRank c) = true := by
      intro a b c hab hbc
      exact decide_eq_true_eq.mpr
        (Nat.le_trans (of_decide_eq_true hab) (of_decide_eq_true hbc))
    have htot : ∀ a b : SchemaChange,
        decide (changeRank a ≤ changeRank b) = true ∨
        decide (changeRank b ≤ changeRank a) = true := by
      intro a b
      rcases Nat.le_total (changeRank a) (changeRank b) with h | h
      · exact Or.inl (decide_eq_true_eq.mpr h)
      · exact Or.inr (decide_eq_true_eq.mpr h)
    have := pairwise_stableSort htrans htot changes
    exact this.imp (fun h => of_decide_eq_true h)

/-- C9 counterexample: with the migrations-tracking table name configured to
`custom_migrations` (the `migrationsTable` option of `MigrationConfig`), a
SQLite catalog containing a user table of that name is NOT excluded: the
introspector hardcodes `__drizzle_migrations` and never consults the
configured name. -/
theorem c9_counterexample :
    mapHas (introspect (CatalogData.sqlite exCustomCatalog)).tables
      "custom_migrations" = true := by
  decide

/-- C9 (amended): for every dialect and every catalog, the introspected
schema contains no table named `__drizzle_migrations` — the fixed default
tracking-table name, not the configured one. -/
theorem c9_introspect_excludes_default_table (catalog : CatalogData) :
    mapHas (introspect catalog).tables "__drizzle_migrations" = false := by
  cases catalog with
  | postgresql c =>
    apply mapHas_mapFromList_eq_false
    intro p hp
    obtain ⟨t, ht, rfl⟩ := List.mem_map.mp hp
    have hf := (List.mem_filter.mp ht).2
    simpa [bne_iff_ne] using hf
  | mysql c =>
    apply mapHas_mapFromList_eq_false
    intro p hp
    obtain ⟨t, ht, rfl⟩ := List.mem_map.mp hp
    have hf := (List.mem_filter.mp ht).2
    simpa [bne_iff_ne] using hf
  | sqlite c =>
    apply mapHas_mapFromList_eq_false
    intro p hp
    obtain ⟨t, ht, rfl⟩ := List.mem_map.mp hp
    have hf := (List.mem_filter.mp ht).2
    rw [Bool.and_eq_true] at hf
    simpa [bne_iff_ne] using hf.1

/-- C10: every foreign key produced by SQLite introspection carries the
synthesized name `fk_<tableName>_<referencingColumn>_<referencedTable>`
(pragmas expose no constraint names), so two foreign keys from the same
column to the same table collide on name regardless of referenced column or
actions — and diff matching of SQLite foreign keys by name rests entirely on
this format. -/
theorem c10_sqlite_fk_synthesized_name (tableName : String) (r1 r2 : SqliteFkRow) :
    (sqliteFkOfRow tableName r1).name =
      "fk_" ++ tableName ++ "_" ++ r1.fromCol ++ "_" ++ r1.table ∧
    (r1.fromCol = r2.fromCol → r1.table = r2.table →
      (sqliteFkOfRow tableName r1).name = (sqliteFkOfRow tableName r2).name) := by
  refine ⟨rfl, fun h1 h2 => ?_⟩
  simp [sqliteFkOfRow, h1, h2]

/-- Witness for C10: two pragma rows from `posts.user_id` to `users`, one
referencing `id` and one referencing `uuid`, produce the same synthesized
name `fk_posts_user_id_users`. -/
theorem c10_sqlite_fk_synthesized_name_witness :
    (sqliteFkOfRow "posts" exFkRow1).name = "fk_posts_user_id_users" ∧
    (sqliteFkOfRow "posts" exFkRow1).name = (sqliteFkOfRow "posts" exFkRow2).name :=
  ⟨((c10_sqlite_fk_synthesized_name "posts" exFkRow1 exFkRow2).1).trans (by decide),
    (c10_sqlite_fk_synthesized_name "posts" exFkRow1 exFkRow2).2 rfl rfl⟩

end Drizzle
